import Mathlib

/-!
Shallow embedding of the agent control loop of the langgraph-barebones
repository: the conversation data model, the `callModel` / `shouldContinue`
nodes (src/modules/workflows/basic/index.ts), the tool-execution node, the
bounded model↔tool loop, the per-turn conversation driver
(src/modules/workflows — `conversation` / `runApplication`), and the
calculator tool (`CalculatorTool._call`).
-/

/-- A tool-call request emitted by the model: identifier, tool name and an
opaque argument payload (the loop passes arguments through opaquely). -/
structure ToolCall where
  id : String
  name : String
  args : String
deriving Repr, DecidableEq

/-- Messages of the conversation state: `user` free text, `assistant` free
text plus zero-or-more tool calls (`AIMessage.tool_calls`), and `toolResult`
carrying the output of one tool call tagged with the tool name and the
originating call identifier (`ToolMessage`). -/
inductive Message where
  | user (content : String)
  | assistant (content : String) (tool_calls : List ToolCall)
  | toolResult (content : String) (name : String) (tool_call_id : String)
deriving Repr, DecidableEq

/-- A registry entry: tool name and its execution function. A raising
execution function is embedded as `Except.error` carrying the message. -/
structure ToolDef where
  name : String
  run : String → Except String String

/-- The chat-model abstraction: the full message history in, one assistant
reply out (content and tool calls), or a thrown invocation error. -/
abbrev ChatModel := List Message → Except String (String × List ToolCall)

/-- Truthiness of `lastMessage.tool_calls?.length` in `shouldContinue`:
a non-assistant message has no `tool_calls` field (undefined, falsy), and an
empty list has length 0 (falsy). -/
def hasToolCalls (m : Message) : Bool :=
  match m with
  | Message.assistant _ tool_calls => tool_calls.length != 0
  | _ => false

/-- `shouldContinue` from src/modules/workflows/basic/index.ts: reads
`messages[messages.length - 1]`; on an empty sequence that access is
undefined, embedded as `none`. Routes to "tools" when the last message
carries tool calls, otherwise to "__end__". -/
def shouldContinue (messages : List Message) : Option String :=
  match messages.getLast? with
  | none => none
  | some lastMessage =>
    some (if hasToolCalls lastMessage then "tools" else "__end__")

/-- `callModel` from src/modules/workflows/basic/index.ts: invoke the model
on the current messages and return the singleton list of messages to append. -/
def callModel (model : ChatModel) (messages : List Message) :
    Except String (List Message) :=
  (model messages).map (fun r => [Message.assistant r.1 r.2])

/-- Tool-error text surfaced to the model as tool-result content. -/
def toolErrorText (msg : String) : String :=
  "Error: " ++ msg ++ "\n Please fix your mistakes."

/-- Error text for a tool name absent from the registry. -/
def unknownToolText (name : String) : String :=
  toolErrorText ("Tool \"" ++ name ++ "\" not found.")

/-- Modelled from the spec: execution of one ToolCall by the tool node
(the `ToolNode` class of @langchain/langgraph/prebuilt, instantiated in
src/modules/workflows/basic.ts but not itself part of this repository).
Look the tool up by name; an absent tool or a raising execution function is
recovered locally as textual tool-result content, never a raise. -/
def execToolCall (registry : List ToolDef) (c : ToolCall) : Message :=
  match registry.find? (fun t => t.name == c.name) with
  | none => Message.toolResult (unknownToolText c.name) c.name c.id
  | some t =>
    match t.run c.args with
    | Except.ok out => Message.toolResult out t.name c.id
    | Except.error e => Message.toolResult (toolErrorText e) t.name c.id

/-- Modelled from the spec: the tool node reads the last message of the
state and produces one tool-result message per requested ToolCall, in the
order the calls appear in that assistant message. -/
def toolNode (registry : List ToolDef) (messages : List Message) :
    List Message :=
  match messages.getLast? with
  | some (Message.assistant _ tool_calls) =>
    tool_calls.map (execToolCall registry)
  | _ => []

/-- Fatal turn errors: a propagated model-invocation failure, or the
iteration bound exceeded without reaching DONE. -/
inductive TurnError where
  | modelError (e : String)
  | loopBoundExceeded
deriving Repr, DecidableEq

/-- Modelled from the spec: the runtime of the compiled graph
(agent → route → tools → agent …) with an explicit iteration budget. Each
round: call the model and append its reply; if the routing decision is
"tools", append the tool results and loop, otherwise stop. Model failures
propagate; an exhausted budget is the fatal loop error. -/
def runLoop (model : ChatModel) (registry : List ToolDef) :
    Nat → List Message → Except TurnError (List Message)
  | 0, _ => Except.error TurnError.loopBoundExceeded
  | fuel+1, messages =>
    match callModel model messages with
    | Except.error e => Except.error (TurnError.modelError e)
    | Except.ok newMessages =>
      let extended := messages ++ newMessages
      if shouldContinue extended = some "tools" then
        runLoop model registry fuel (extended ++ toolNode registry extended)
      else
        Except.ok extended

/-- Modelled from the spec: the iteration bound on model↔tool round-trips
within one turn ("a reasonable implementation bounds iterations, e.g., 25"). -/
def recursionLimit : Nat := 25

/-- One invocation of the agent loop on the current conversation state. -/
def runTurn (model : ChatModel) (registry : List ToolDef)
    (state : List Message) : Except TurnError (List Message) :=
  runLoop model registry recursionLimit state

/-- One user turn of the conversation driver (`conversation` in
src/unnamed/part_003 and `runApplication` in src/modules/workflows/basic.ts):
push the user message into the state, invoke the workflow, and on success
replace the state with the response; on failure the exception is rethrown
and the state variable still holds the pushed user message (the push is
never undone). Returns the turn outcome and the state visible afterwards. -/
def conversationTurn (model : ChatModel) (registry : List ToolDef)
    (state : List Message) (userInput : String) :
    Except TurnError (List Message) × List Message :=
  let pushed := state ++ [Message.user userInput]
  match runTurn model registry pushed with
  | Except.ok response => (Except.ok response, response)
  | Except.error e => (Except.error e, pushed)

/-- Characters kept by `CalculatorTool._call`'s sanitisation regex
`[^0-9+\-*/().\s]`: digits, the arithmetic operators, parentheses, the dot
and whitespace. -/
def isCalculatorChar (c : Char) : Bool :=
  c.isDigit || c == '+' || c == '-' || c == '*' || c == '/' ||
    c == '(' || c == ')' || c == '.' || c.isWhitespace

/-- `input.replace(/[^0-9+\-*/().\s]/g, "")` from `CalculatorTool._call`:
strip every character outside the allowed set. -/
def sanitizeExpression (input : String) : String :=
  String.mk (input.data.filter isCalculatorChar)

/-- `CalculatorTool._call` from the tools module, parametrised by the host
evaluator (JavaScript `eval`, a runtime builtin outside this repository):
evaluate the sanitised expression; a successful evaluation is reported as
`Result of <input> = <result>`, any failure is caught and reported as
`Error calculating <input>: <message>`. Total: always returns a string. -/
def calculatorCall (evalFn : String → Except String String)
    (input : String) : String :=
  match evalFn (sanitizeExpression input) with
  | Except.ok result => "Result of " ++ input ++ " = " ++ result
  | Except.error msg => "Error calculating " ++ input ++ ": " ++ msg

/-- The calculator registry entry: its execution function never raises. -/
def calculatorTool (evalFn : String → Except String String) : ToolDef :=
  { name := "calculator", run := fun input => Except.ok (calculatorCall evalFn input) }

/-! ## Stub models and tools used to evaluate the theorems on concrete inputs -/

/-- A deterministic model replying "hi" with no tool calls. -/
def stubModel : ChatModel := fun _ => Except.ok ("hi", [])

/-- A model whose invocation always throws. -/
def failModel : ChatModel := fun _ => Except.error "auth failure"

/-- A sample calculator tool call. -/
def sampleCall : ToolCall := { id := "1", name := "calculator", args := "2+2" }

/-- A model that requests the calculator on every invocation. -/
def loopModel : ChatModel := fun _ => Except.ok ("", [sampleCall])

/-- A tool call naming a tool absent from every registry used below. -/
def unknownCall : ToolCall := { id := "7", name := "frobnicate", args := "x" }

/-- A model that requests the unknown tool once. -/
def unknownModel : ChatModel := fun _ => Except.ok ("", [unknownCall])

/-- A tool whose execution function always raises. -/
def bombTool : ToolDef := { name := "bomb", run := fun _ => Except.error "boom" }

/-- A tool call targeting `bombTool`. -/
def bombCall : ToolCall := { id := "9", name := "bomb", args := "x" }

/-- A model that requests the raising tool once. -/
def bombModel : ChatModel := fun _ => Except.ok ("", [bombCall])

/-- A model that requests the calculator on its first invocation of a turn
and throws on the next one, mid-turn, after a tool round. -/
def flakyModel : ChatModel := fun s =>
  if s.length ≤ 1 then Except.ok ("", [sampleCall])
  else Except.error "rate limit"

/-! ## Helper lemmas -/

/-- Routing after an append: `shouldContinue` reads the appended message. -/
theorem shouldContinue_concat (l : List Message) (m : Message) :
    shouldContinue (l ++ [m]) =
      some (if hasToolCalls m then "tools" else "__end__") := by
  simp [shouldContinue, List.getLast?_concat]

/-- A successful model invocation yields the singleton assistant append. -/
theorem callModel_ok (model : ChatModel) (messages : List Message)
    (content : String) (tcs : List ToolCall)
    (h : model messages = Except.ok (content, tcs)) :
    callModel model messages = Except.ok [Message.assistant content tcs] := by
  simp [callModel, h, Except.map]

/-- A thrown model invocation propagates through `callModel`. -/
theorem callModel_error (model : ChatModel) (messages : List Message)
    (e : String) (h : model messages = Except.error e) :
    callModel model messages = Except.error e := by
  simp [callModel, h, Except.map]

/-- The tool node maps over the tool calls of a freshly appended assistant
message. -/
theorem toolNode_concat_assistant (registry : List ToolDef)
    (l : List Message) (content : String) (tcs : List ToolCall) :
    toolNode registry (l ++ [Message.assistant content tcs]) =
      tcs.map (execToolCall registry) := by
  simp [toolNode, List.getLast?_concat]

/-- One loop round on a model failure: the error propagates. -/
theorem runLoop_model_error (model : ChatModel) (registry : List ToolDef)
    (fuel : Nat) (messages : List Message) (e : String)
    (h : model messages = Except.error e) :
    runLoop model registry (fuel + 1) messages =
      Except.error (TurnError.modelError e) := by
  simp [runLoop, callModel_error model messages e h]

/-- One loop round on a reply without tool calls: halt with one append. -/
theorem runLoop_halt (model : ChatModel) (registry : List ToolDef)
    (fuel : Nat) (messages : List Message) (content : String)
    (h : model messages = Except.ok (content, [])) :
    runLoop model registry (fuel + 1) messages =
      Except.ok (messages ++ [Message.assistant content []]) := by
  rw [runLoop, callModel_ok model messages content [] h]
  simp [shouldContinue_concat, hasToolCalls]

/-- One loop round on a reply with tool calls: append the assistant message
and its tool results in call order, then loop. -/
theorem runLoop_step (model : ChatModel) (registry : List ToolDef)
    (fuel : Nat) (messages : List Message) (content : String)
    (tcs : List ToolCall) (hne : tcs ≠ [])
    (h : model messages = Except.ok (content, tcs)) :
    runLoop model registry (fuel + 1) messages =
      runLoop model registry fuel
        (messages ++ [Message.assistant content tcs] ++
          tcs.map (execToolCall registry)) := by
  rw [runLoop, callModel_ok model messages content tcs h]
  have hcond : shouldContinue (messages ++ [Message.assistant content tcs]) =
      some "tools" := by
    rw [shouldContinue_concat]
    simp [hasToolCalls, List.length_eq_zero, hne]
  simp [hcond, toolNode_concat_assistant]

/-! ## Claim theorems -/

/-- Claim C1: when the model returns an assistant message with zero
ToolCalls, one turn of the agent loop terminates immediately after the model
call — exactly the one assistant message is appended and no tool-result
messages are added. -/
theorem runTurn_terminates_without_toolcalls (model : ChatModel)
    (registry : List ToolDef) (state : List Message) (content : String)
    (h : model state = Except.ok (content, [])) :
    runTurn model registry state =
      Except.ok (state ++ [Message.assistant content []]) := by
  show runLoop model registry (24 + 1) state = _
  exact runLoop_halt model registry 24 state content h

/-- Claim C1 witness at a concrete input. -/
theorem runTurn_terminates_without_toolcalls_witness :
    runTurn stubModel [] [Message.user "q"] =
      Except.ok ([Message.user "q"] ++ [Message.assistant "hi" []]) :=
  runTurn_terminates_without_toolcalls stubModel [] [Message.user "q"] "hi" rfl

/-- Claim C2: when the assistant message carries the non-empty ToolCall list
`tcs`, the loop appends, immediately after that assistant message, exactly
`tcs.map (execToolCall registry)` — one tool-result per requested call, in
the same order as the calls — and then continues. -/
theorem toolResults_follow_toolcall_order (model : ChatModel)
    (registry : List ToolDef) (state : List Message) (fuel : Nat)
    (content : String) (tcs : List ToolCall) (hne : tcs ≠ [])
    (h : model state = Except.ok (content, tcs)) :
    runLoop model registry (fuel + 1) state =
      runLoop model registry fuel
        (state ++ [Message.assistant content tcs] ++
          tcs.map (execToolCall registry))
    ∧ (tcs.map (execToolCall registry)).length = tcs.length
    ∧ ∀ i : Nat, (tcs.map (execToolCall registry))[i]? =
        (tcs[i]?).map (execToolCall registry) := by
  refine ⟨runLoop_step model registry fuel state content tcs hne h, ?_, ?_⟩
  · exact List.length_map tcs (execToolCall registry)
  · intro i
    exact List.getElem?_map (execToolCall registry) tcs i

/-- Claim C2 witness at a concrete input. -/
theorem toolResults_follow_toolcall_order_witness :
    runLoop loopModel [] 1 [] =
      runLoop loopModel [] 0
        ([] ++ [Message.assistant "" [sampleCall]] ++
          [sampleCall].map (execToolCall []))
    ∧ ([sampleCall].map (execToolCall [])).length = [sampleCall].length
    ∧ ([sampleCall].map (execToolCall []))[0]? =
        ([sampleCall][0]?).map (execToolCall []) := by
  have h := toolResults_follow_toolcall_order loopModel [] [] 0 "" [sampleCall]
    (by decide) rfl
  exact ⟨h.1, h.2.1, h.2.2 0⟩

/-- Claim C3: a ToolCall naming a tool absent from the registry does not
raise — it yields a tool-result message whose content names the unknown
tool, and the loop continues to the next model call. -/
theorem unknown_tool_recovered_as_error_text (model : ChatModel)
    (registry : List ToolDef) (state : List Message) (fuel : Nat)
    (content : String) (tcs : List ToolCall) (c : ToolCall)
    (hc : c ∈ tcs)
    (habs : ∀ t ∈ registry, t.name ≠ c.name)
    (h : model state = Except.ok (content, tcs)) :
    execToolCall registry c =
      Message.toolResult (unknownToolText c.name) c.name c.id
    ∧ (∃ pre post, unknownToolText c.name = pre ++ c.name ++ post)
    ∧ runLoop model registry (fuel + 1) state =
        runLoop model registry fuel
          (state ++ [Message.assistant content tcs] ++
            tcs.map (execToolCall registry)) := by
  have hfind : registry.find? (fun t => t.name == c.name) = none := by
    rw [List.find?_eq_none]
    intro t ht
    simp [habs t ht]
  refine ⟨?_, ?_, ?_⟩
  · simp [execToolCall, hfind]
  · refine ⟨"Error: Tool \"", "\" not found.\n Please fix your mistakes.", ?_⟩
    have h1 : ("Error: " ++ "Tool \"" : String) = "Error: Tool \"" := rfl
    have h2 : ("\" not found." ++ "\n Please fix your mistakes." : String) =
        "\" not found.\n Please fix your mistakes." := rfl
    unfold unknownToolText toolErrorText
    simp only [← String.append_assoc]
    rw [h1, String.append_assoc ("Error: Tool \"" ++ c.name), h2]
  · exact runLoop_step model registry fuel state content tcs
      (List.ne_nil_of_mem hc) h

/-- Claim C3 witness at a concrete input. -/
theorem unknown_tool_recovered_as_error_text_witness :
    execToolCall [] unknownCall =
      Message.toolResult (unknownToolText unknownCall.name) unknownCall.name
        unknownCall.id
    ∧ (∃ pre post, unknownToolText unknownCall.name =
        pre ++ unknownCall.name ++ post)
    ∧ runLoop unknownModel [] 1 [] =
        runLoop unknownModel [] 0
          ([] ++ [Message.assistant "" [unknownCall]] ++
            [unknownCall].map (execToolCall [])) :=
  unknown_tool_recovered_as_error_text unknownModel [] [] 0 "" [unknownCall]
    unknownCall (by decide) (by intro t ht; simp at ht) rfl

/-- Claim C5: a ToolCall whose execution function raises does not abort the
turn — the failure becomes the textual content of the corresponding
tool-result message and the loop continues to the next model call. -/
theorem tool_failure_recovered_as_error_text (model : ChatModel)
    (registry : List ToolDef) (state : List Message) (fuel : Nat)
    (content : String) (tcs : List ToolCall) (c : ToolCall) (t : ToolDef)
    (msg : String)
    (hc : c ∈ tcs)
    (hfind : registry.find? (fun t => t.name == c.name) = some t)
    (hrun : t.run c.args = Except.error msg)
    (h : model state = Except.ok (content, tcs)) :
    execToolCall registry c =
      Message.toolResult (toolErrorText msg) t.name c.id
    ∧ runLoop model registry (fuel + 1) state =
        runLoop model registry fuel
          (state ++ [Message.assistant content tcs] ++
            tcs.map (execToolCall registry)) := by
  refine ⟨?_, ?_⟩
  · simp [execToolCall, hfind, hrun]
  · exact runLoop_step model registry fuel state content tcs
      (List.ne_nil_of_mem hc) h

/-- Claim C5 witness at a concrete input. -/
theorem tool_failure_recovered_as_error_text_witness :
    execToolCall [bombTool] bombCall =
      Message.toolResult (toolErrorText "boom") bombTool.name bombCall.id
    ∧ runLoop bombModel [bombTool] 1 [] =
        runLoop bombModel [bombTool] 0
          ([] ++ [Message.assistant "" [bombCall]] ++
            [bombCall].map (execToolCall [bombTool])) :=
  tool_failure_recovered_as_error_text bombModel [bombTool] [] 0 "" [bombCall]
    bombCall bombTool "boom" (by decide) rfl rfl rfl

/-- Claim C4 counterexample: the model invocation throws, the error does
propagate, yet the state visible afterwards has length 1, not its pre-turn
length 0 — the user message pushed at the start of the turn is never rolled
back by the driver. -/
theorem model_error_user_message_remains :
    (conversationTurn failModel [] [] "hi").1 =
      Except.error (TurnError.modelError "auth failure")
    ∧ ((conversationTurn failModel [] [] "hi").2).length ≠
        ([] : List Message).length := by
  exact ⟨rfl, by decide⟩

/-- Claim C4 (amended): for every turn whose model invocation throws —
at the first invocation or mid-turn after any number of tool rounds, the
only source of a model error in the loop — the error propagates to the
caller as a model error and no assistant or tool-result message of the
aborted turn is visible; but the user message pushed at the start of the
turn remains, so the visible state is the pre-turn state plus exactly that
one user message. -/
theorem model_error_aborts_after_user_push (model : ChatModel)
    (registry : List ToolDef) (state : List Message) (u e : String)
    (h : runTurn model registry (state ++ [Message.user u]) =
      Except.error (TurnError.modelError e)) :
    conversationTurn model registry state u =
      (Except.error (TurnError.modelError e), state ++ [Message.user u]) := by
  simp [conversationTurn, h]

/-- Claim C4 (amended) witness at a concrete input where the model throws
on its second invocation, mid-turn after one tool round: the assistant
message and tool result of that first round are not visible afterwards. -/
theorem model_error_aborts_after_user_push_witness :
    conversationTurn flakyModel [] [] "hi" =
      (Except.error (TurnError.modelError "rate limit"),
        [] ++ [Message.user "hi"]) :=
  model_error_aborts_after_user_push flakyModel [] [] "hi" "rate limit" rfl

/-- Under a model that always requests at least one tool call, every fuel
budget is exhausted and the loop reports the fatal loop-bound error. -/
theorem runLoop_always_tools (model : ChatModel) (registry : List ToolDef)
    (hm : ∀ s, ∃ content c cs, model s = Except.ok (content, c :: cs)) :
    ∀ fuel s, runLoop model registry fuel s =
      Except.error TurnError.loopBoundExceeded := by
  intro fuel
  induction fuel with
  | zero => intro s; rfl
  | succ n ih =>
    intro s
    obtain ⟨content, c, cs, h⟩ := hm s
    rw [runLoop_step model registry n s content (c :: cs) (by simp) h]
    exact ih _

/-- Claim C6 counterexample: with a model that always requests a tool call,
the turn does end in the distinct fatal loop-bound error, but the state
visible afterwards has length 1, not its pre-turn length 0 — it is not
rolled back to its pre-turn value. -/
theorem loop_bound_user_message_remains :
    (conversationTurn loopModel [] [] "go").1 =
      Except.error TurnError.loopBoundExceeded
    ∧ ((conversationTurn loopModel [] [] "go").2).length ≠
        ([] : List Message).length := by
  exact ⟨rfl, by decide⟩

/-- Claim C6 (amended): when the model keeps returning assistant messages
with ToolCalls, the iteration bound is exhausted and reported to the caller
as the fatal loop-bound error, which is distinct from every model-invocation
error (tool errors never surface as turn errors at all); the assistant and
tool-result messages of the aborted turn are discarded, but the user message
pushed at the start of the turn remains in the visible state. -/
theorem loop_bound_reported_as_fatal (model : ChatModel)
    (registry : List ToolDef) (state : List Message) (u : String)
    (hm : ∀ s, ∃ content c cs, model s = Except.ok (content, c :: cs)) :
    conversationTurn model registry state u =
      (Except.error TurnError.loopBoundExceeded, state ++ [Message.user u])
    ∧ ∀ e, (TurnError.loopBoundExceeded : TurnError) ≠
        TurnError.modelError e := by
  refine ⟨?_, fun e => by simp⟩
  have hrt : runTurn model registry (state ++ [Message.user u]) =
      Except.error TurnError.loopBoundExceeded :=
    runLoop_always_tools model registry hm recursionLimit _
  simp [conversationTurn, hrt]

/-- Claim C6 (amended) witness at a concrete input. -/
theorem loop_bound_reported_as_fatal_witness :
    conversationTurn loopModel [] [] "go" =
      (Except.error TurnError.loopBoundExceeded, [] ++ [Message.user "go"])
    ∧ ∀ e, (TurnError.loopBoundExceeded : TurnError) ≠
        TurnError.modelError e :=
  loop_bound_reported_as_fatal loopModel [] [] "go"
    (fun _ => ⟨"", sampleCall, [], rfl⟩)

/-- Every successful run of the bounded loop returns an extension of its
input state: the input is a prefix and new messages are only appended. -/
theorem runLoop_extends (model : ChatModel) (registry : List ToolDef) :
    ∀ (fuel : Nat) (state out : List Message),
      runLoop model registry fuel state = Except.ok out →
      ∃ tail, out = state ++ tail := by
  intro fuel
  induction fuel with
  | zero => intro state out h; simp [runLoop] at h
  | succ n ih =>
    intro state out h
    rw [runLoop] at h
    cases hcm : callModel model state with
    | error e => rw [hcm] at h; simp at h
    | ok newMessages =>
      rw [hcm] at h
      simp only at h
      by_cases hsc : shouldContinue (state ++ newMessages) = some "tools"
      · rw [if_pos hsc] at h
        obtain ⟨tail, htail⟩ := ih _ _ h
        exact ⟨newMessages ++
          toolNode registry (state ++ newMessages) ++ tail, by
            simp [htail, List.append_assoc]⟩
      · rw [if_neg hsc] at h
        exact ⟨newMessages, by simpa using h.symm⟩

/-- Claim C7: the message sequence returned by a successful turn is strictly
an extension of the input sequence — every prior message is present at its
original position and new messages are only appended at the end. -/
theorem successful_turn_extends_state (model : ChatModel)
    (registry : List ToolDef) (state out : List Message)
    (h : runTurn model registry state = Except.ok out) :
    ∃ tail, out = state ++ tail :=
  runLoop_extends model registry recursionLimit state out h

/-- Claim C7 witness at a concrete input. -/
theorem successful_turn_extends_state_witness :
    ∃ tail, [Message.user "q", Message.assistant "hi" []] =
      [Message.user "q"] ++ tail :=
  successful_turn_extends_state stubModel [] [Message.user "q"]
    [Message.user "q", Message.assistant "hi" []] rfl

/-- Claim C8: the loop is deterministic — two runs of one turn from the same
initial state with the same (stubbed) model and tool registry produce the
same result, value for value. -/
theorem runTurn_deterministic (model : ChatModel) (registry : List ToolDef)
    (state : List Message) (out1 out2 : Except TurnError (List Message))
    (h1 : runTurn model registry state = out1)
    (h2 : runTurn model registry state = out2) : out1 = out2 :=
  h1.symm.trans h2

/-- Claim C8 witness at a concrete input. -/
theorem runTurn_deterministic_witness :
    (Except.ok ([] ++ [Message.assistant "hi" []]) :
      Except TurnError (List Message)) =
      Except.ok ([] ++ [Message.assistant "hi" []]) :=
  runTurn_deterministic stubModel [] []
    (Except.ok ([] ++ [Message.assistant "hi" []]))
    (Except.ok ([] ++ [Message.assistant "hi" []])) rfl rfl

/-- Claim C9: `shouldContinue` reads the last element, so its embedding is
`none` exactly on the empty sequence; the sequence it is routed on is the
one extended by the agent node's append, which is never empty, so the
failure branch is unreachable in the loop. -/
theorem shouldContinue_total_after_agent (model : ChatModel)
    (messages out : List Message)
    (h : callModel model messages = Except.ok out) :
    messages ++ out ≠ []
    ∧ (shouldContinue (messages ++ out)).isSome = true
    ∧ shouldContinue ([] : List Message) = none := by
  cases hm : model messages with
  | error e => rw [callModel_error model messages e hm] at h; simp at h
  | ok r =>
    rw [callModel_ok model messages r.1 r.2 (by simpa using hm)] at h
    obtain rfl : [Message.assistant r.1 r.2] = out := by simpa using h
    refine ⟨by simp, ?_, rfl⟩
    rw [show messages ++ [Message.assistant r.1 r.2] =
      messages ++ [Message.assistant r.1 r.2] from rfl, shouldContinue_concat]
    rfl

/-- Claim C9 witness at a concrete input. -/
theorem shouldContinue_total_after_agent_witness :
    ([] : List Message) ++ [Message.assistant "hi" []] ≠ []
    ∧ (shouldContinue (([] : List Message) ++
        [Message.assistant "hi" []])).isSome = true
    ∧ shouldContinue ([] : List Message) = none :=
  shouldContinue_total_after_agent stubModel [] [Message.assistant "hi" []]
    rfl

/-- Claim C10: the calculator's execution function is total — for every
input and every behaviour of the host evaluator it returns a string, never
raises: every character of the evaluated expression survives the
sanitisation filter (digits, operators, parentheses, dot, whitespace), a
successful evaluation is reported as a result text, and every evaluation
failure is caught and reported as `Error calculating <input>: <message>`. -/
theorem calculator_total_and_catches (evalFn : String → Except String String)
    (input : String) :
    (∀ c ∈ (sanitizeExpression input).data, isCalculatorChar c = true)
    ∧ ((∃ r, evalFn (sanitizeExpression input) = Except.ok r ∧
          calculatorCall evalFn input = "Result of " ++ input ++ " = " ++ r)
       ∨ (∃ m, evalFn (sanitizeExpression input) = Except.error m ∧
          calculatorCall evalFn input =
            "Error calculating " ++ input ++ ": " ++ m)) := by
  constructor
  · intro c hc
    have : c ∈ input.data.filter isCalculatorChar := by
      simpa [sanitizeExpression] using hc
    exact List.of_mem_filter this
  · cases hev : evalFn (sanitizeExpression input) with
    | ok r => exact Or.inl ⟨r, rfl, by simp [calculatorCall, hev]⟩
    | error m => exact Or.inr ⟨m, rfl, by simp [calculatorCall, hev]⟩
